import Mathlib

/-!
Shallow embedding of the core game logic of the vaporwave endless-runner:
the zustand store (src/store.ts), the obstacle manager's per-frame
spawn/move/despawn/collision loop (src/components/ObstacleManager.tsx),
the player's jump integrator (src/components/Player.tsx) and the UI's
game-over commentary flow (the UI component).  Numeric state is modelled
with rationals; JS floats carry no overflow semantics relevant here.
-/

namespace Runner

/-- Run phase, from the GameState enum in the types file. -/
inductive GameState
  | MENU
  | PLAYING
  | GAME_OVER
deriving DecidableEq, Repr

/-- Entity kind: the ObstacleType union ('obstacle' | 'bonus' | 'laser').
The spec calls 'laser' a Hazard. -/
inductive ObstacleType
  | obstacle
  | bonus
  | laser
deriving DecidableEq, Repr

/-- One active entity, from the ObstacleData interface: render id, lane
(-1/0/+1), longitudinal position z, and kind. -/
structure ObstacleData where
  id : String
  lane : Int
  z : ℚ
  type : ObstacleType
deriving DecidableEq, Repr

/-- The store state of src/store.ts (useGameStore). -/
structure StoreState where
  gameState : GameState
  score : ℚ
  highScore : ℚ
  currentLane : Int
  speed : ℚ
  gameSpeedMultiplier : ℚ
  isJumping : Bool
  lastRunCommentary : Option String
deriving DecidableEq, Repr

def Lane.LEFT : Int := -1
def Lane.CENTER : Int := 0
def Lane.RIGHT : Int := 1

def INITIAL_SPEED : ℚ := 30
def INITIAL_LANE : Int := Lane.CENTER

/-- Initial store value of useGameStore. -/
def initialStore : StoreState :=
  { gameState := GameState.MENU, score := 0, highScore := 0,
    currentLane := INITIAL_LANE, speed := INITIAL_SPEED,
    gameSpeedMultiplier := 1, isJumping := false, lastRunCommentary := none }

/-- startGame action: reset the run and enter PLAYING. -/
def startGame (s : StoreState) : StoreState :=
  { s with
      gameState := GameState.PLAYING
      score := 0
      currentLane := INITIAL_LANE
      speed := INITIAL_SPEED
      gameSpeedMultiplier := 1
      isJumping := false
      lastRunCommentary := none }

/-- endGame action: unconditionally sets GAME_OVER and
highScore = max(score, highScore).  (It also plays a sound, outside this
state model.)  Note there is no guard on the current phase. -/
def endGame (s : StoreState) : StoreState :=
  { s with
      gameState := GameState.GAME_OVER
      highScore := max s.score s.highScore }

/-- moveLeft action: currentLane = max(Lane.LEFT, currentLane - 1). -/
def moveLeft (s : StoreState) : StoreState :=
  { s with currentLane := max Lane.LEFT (s.currentLane - 1) }

/-- moveRight action: currentLane = min(Lane.RIGHT, currentLane + 1). -/
def moveRight (s : StoreState) : StoreState :=
  { s with currentLane := min Lane.RIGHT (s.currentLane + 1) }

/-- jump action: no-op while already jumping. -/
def jump (s : StoreState) : StoreState :=
  if s.isJumping then s else { s with isJumping := true }

/-- land action. -/
def land (s : StoreState) : StoreState :=
  { s with isJumping := false }

/-- setScore action: overwrites score with the given value. -/
def setScore (v : ℚ) (s : StoreState) : StoreState :=
  { s with score := v }

/-- increaseSpeed action: gameSpeedMultiplier += delta. -/
def increaseSpeed (d : ℚ) (s : StoreState) : StoreState :=
  { s with gameSpeedMultiplier := s.gameSpeedMultiplier + d }

/-- setCommentary action. -/
def setCommentary (t : String) (s : StoreState) : StoreState :=
  { s with lastRunCommentary := some t }

/-! ## Obstacle manager -/

def SPAWN_Z : ℚ := -100
def DESPAWN_Z : ℚ := 5
def COLLISION_THRESHOLD : ℚ := 3/2

/-- Local state of the ObstacleManager component (refs). -/
structure ManagerState where
  obstacles : List ObstacleData
  lastSpawnTime : ℚ
  distance : ℚ
deriving DecidableEq, Repr

/-- The random draws consumed by one spawn event: the main roll
(Math.random() in [0,1)), the second coin for the lane count, the
randomly shuffled copy of [LEFT, CENTER, RIGHT], and the random id
strings. -/
structure SpawnRand where
  rand : ℚ
  rand2 : ℚ
  shuffled : List Int
  ids : List String

/-- One spawn event, from the spawn block of the manager's frame:
rand < 0.15 spawns a single center-lane laser; otherwise
isBonus = rand < 0.3, lanesToFill = 1 if isBonus or rand2 > 0.6 else 2,
and the loop pushes lanesToFill entities into the first shuffled lanes
(slot 0 is the bonus when isBonus, slot 1 is skipped when isBonus). -/
def spawnEntities (r : SpawnRand) : List ObstacleData :=
  if r.rand < 15/100 then
    [{ id := r.ids.getD 0 "", lane := Lane.CENTER, z := SPAWN_Z,
       type := ObstacleType.laser }]
  else
    let isBonus : Bool := decide (r.rand < 30/100)
    let lanesToFill : Nat := if isBonus || decide (r.rand2 > 6/10) then 1 else 2
    (List.range lanesToFill).filterMap (fun i =>
      if i = 1 ∧ isBonus = true then none
      else some { id := r.ids.getD i "", lane := r.shuffled.getD i 0,
                  z := SPAWN_Z,
                  type := if isBonus = true ∧ i = 0 then ObstacleType.bonus
                          else ObstacleType.obstacle })

/-- The near-field collision test of the manager:
obs.z > -1.5 && obs.z < COLLISION_THRESHOLD (both strict). -/
def inBand (z : ℚ) : Bool :=
  decide ((-3 : ℚ)/2 < z) && decide (z < COLLISION_THRESHOLD)

/-- The collision loop of the manager's frame, which walks the entity
array from the highest index down.  The input list here is the entity
array reversed (head = highest index).  A laser with the player not
jumping, or a same-lane obstacle with the player not jumping, ends the
game and breaks (the remaining entities are returned untouched); a
same-lane bonus adds 500 to the freshly read score and is spliced out;
everything else is kept and the walk continues. -/
def collideRev (pl : Int) (jmp : Bool) :
    StoreState → List ObstacleData → StoreState × List ObstacleData
  | s, [] => (s, [])
  | s, o :: rest =>
    if inBand o.z then
      match o.type with
      | ObstacleType.laser =>
        if jmp then
          let r := collideRev pl jmp s rest
          (r.1, o :: r.2)
        else (endGame s, o :: rest)
      | ObstacleType.bonus =>
        if o.lane = pl then
          collideRev pl jmp (setScore (s.score + 500) s) rest
        else
          let r := collideRev pl jmp s rest
          (r.1, o :: r.2)
      | ObstacleType.obstacle =>
        if o.lane = pl then
          if jmp then
            let r := collideRev pl jmp s rest
            (r.1, o :: r.2)
          else (endGame s, o :: rest)
        else
          let r := collideRev pl jmp s rest
          (r.1, o :: r.2)
    else
      let r := collideRev pl jmp s rest
      (r.1, o :: r.2)

/-- The spawn-timer test of the manager's frame:
elapsedTime - lastSpawnTime > max(0.3, 1.0 / gameSpeedMultiplier). -/
def spawnDue (elapsed : ℚ) (s : StoreState) (m : ManagerState) : Bool :=
  decide (elapsed - m.lastSpawnTime > max (3/10) (1 / s.gameSpeedMultiplier))

/-- The entity list after the move and spawn stages of one frame, before
the despawn filter runs. -/
def preDespawnList (elapsed delta : ℚ) (r : SpawnRand) (s : StoreState)
    (m : ManagerState) : List ObstacleData :=
  let currentSpeed := s.speed * s.gameSpeedMultiplier
  let moved := m.obstacles.map (fun o => { o with z := o.z + currentSpeed * delta })
  if spawnDue elapsed s m then moved ++ spawnEntities r else moved

/-- The despawn filter of the cleanup stage: keep entities with
z < DESPAWN_Z. -/
def despawnKept (pre : List ObstacleData) : List ObstacleData :=
  pre.filter (fun o => decide (o.z < DESPAWN_Z))

/-- The difficulty bump of the cleanup stage: increaseSpeed(0.02 * n)
when n entities were filtered out, nothing otherwise. -/
def despawnBump (pre : List ObstacleData) (s : StoreState) : StoreState :=
  let despawned : Nat := pre.length - (despawnKept pre).length
  if 0 < despawned then increaseSpeed ((2/100) * (despawned : ℚ)) s else s

/-- One frame of the ObstacleManager (the useFrame body): early return
unless PLAYING; move every entity by currentSpeed * delta; spawn when the
timer is due; drop every entity with z >= DESPAWN_Z, bumping
gameSpeedMultiplier by 0.02 per dropped entity; then run the collision
loop from the highest index down with the freshly read lane and jump
flag. -/
def obstacleFrame (elapsed delta : ℚ) (r : SpawnRand) (s : StoreState)
    (m : ManagerState) : StoreState × ManagerState :=
  if s.gameState = GameState.PLAYING then
    let pre := preDespawnList elapsed delta r s m
    let s1 := despawnBump pre s
    let res := collideRev s1.currentLane s1.isJumping s1 (despawnKept pre).reverse
    (res.1, { obstacles := res.2.reverse,
              lastSpawnTime := if spawnDue elapsed s m then elapsed else m.lastSpawnTime,
              distance := m.distance - s.speed * s.gameSpeedMultiplier * delta })
  else (s, m)

/-! ## Player jump integrator -/

def GRAVITY : ℚ := 40
def JUMP_FORCE : ℚ := 15

/-- The jump-related refs of the Player component together with the store
jump flag: height offset, vertical velocity, and isJumping (cleared by
land()). -/
structure JumpState where
  jumpHeightOffset : ℚ
  verticalVelocity : ℚ
  isJumping : Bool
deriving DecidableEq, Repr

/-- One frame of the Player jump physics block: while isJumping or the
offset is positive, offset += velocity * delta, then
velocity -= GRAVITY * delta; if the offset fell to <= 0 it is clamped to
0, velocity zeroed, and land() fires. -/
def jumpStep (delta : ℚ) (j : JumpState) : JumpState :=
  if j.isJumping || decide (0 < j.jumpHeightOffset) then
    let h := j.jumpHeightOffset + j.verticalVelocity * delta
    let v := j.verticalVelocity - GRAVITY * delta
    if h ≤ 0 then
      { jumpHeightOffset := 0, verticalVelocity := 0, isJumping := false }
    else
      { jumpHeightOffset := h, verticalVelocity := v, isJumping := j.isJumping }
  else j

/-- State at jump trigger: offset 0, velocity JUMP_FORCE, mid-air. -/
def jumpStart : JumpState :=
  { jumpHeightOffset := 0, verticalVelocity := JUMP_FORCE, isJumping := true }

/-- Run the per-frame jump update over a list of frame deltas. -/
def jumpRunAux (j : JumpState) : List ℚ → JumpState
  | [] => j
  | d :: ds => jumpRunAux (jumpStep d j) ds

/-- A whole jump integrated from the trigger state. -/
def jumpRun (deltas : List ℚ) : JumpState :=
  jumpRunAux jumpStart deltas

/-- Sum of squared deltas, the discretization error term of the
integrator. -/
def sqSum (l : List ℚ) : ℚ := (l.map (fun d => d * d)).sum

/-! ## UI commentary flow -/

/-- Store plus the UI component's local commentary state: the
loadingCommentary flag and the number of commentary requests currently
in flight. -/
structure UiSystemState where
  store : StoreState
  loadingCommentary : Bool
  inFlight : Nat
deriving DecidableEq, Repr

/-- Asynchronous steps of the UI component around the commentary call:
the game-over effect issues a request when GAME_OVER with no commentary
and not loading; Enter/Space restarts from MENU or GAME_OVER; a resolved
request applies setCommentary and clears the loading flag with no check
of the current phase or run. -/
inductive UiStep : UiSystemState → UiSystemState → Prop
  | requestCommentary (u : UiSystemState) :
      u.store.gameState = GameState.GAME_OVER →
      u.store.lastRunCommentary = none →
      u.loadingCommentary = false →
      UiStep u ⟨u.store, true, u.inFlight + 1⟩
  | pressStart (u : UiSystemState) :
      (u.store.gameState = GameState.MENU ∨
        u.store.gameState = GameState.GAME_OVER) →
      UiStep u ⟨startGame u.store, u.loadingCommentary, u.inFlight⟩
  | resolveCommentary (u : UiSystemState) (txt : String) :
      0 < u.inFlight →
      UiStep u ⟨setCommentary txt u.store, false, u.inFlight - 1⟩

/-! ## Program-level step relation -/

/-- The steps the program itself performs on the store (with the manager
state carried along): an ObstacleManager frame; the keyboard commands the
UI issues (moves and jump only while PLAYING, start only from MENU or
GAME_OVER); the land call from the Player physics; and the asynchronous
setCommentary application. -/
inductive Step : StoreState × ManagerState → StoreState × ManagerState → Prop
  | frame (elapsed delta : ℚ) (r : SpawnRand) (s : StoreState) (m : ManagerState) :
      Step (s, m) (obstacleFrame elapsed delta r s m)
  | uiMoveLeft (s : StoreState) (m : ManagerState) :
      s.gameState = GameState.PLAYING → Step (s, m) (moveLeft s, m)
  | uiMoveRight (s : StoreState) (m : ManagerState) :
      s.gameState = GameState.PLAYING → Step (s, m) (moveRight s, m)
  | uiJump (s : StoreState) (m : ManagerState) :
      s.gameState = GameState.PLAYING → Step (s, m) (jump s, m)
  | playerLand (s : StoreState) (m : ManagerState) :
      Step (s, m) (land s, m)
  | uiStart (s : StoreState) (m : ManagerState) :
      (s.gameState = GameState.MENU ∨ s.gameState = GameState.GAME_OVER) →
      Step (s, m) (startGame s, m)
  | uiCommentary (s : StoreState) (m : ManagerState) (txt : String) :
      Step (s, m) (setCommentary txt s, m)

/-! ## Command sequences -/

/-- A lane command, as issued by the keyboard handler. -/
inductive LaneCmd
  | left
  | right
deriving DecidableEq, Repr

/-- Apply one lane command through the store actions. -/
def applyLaneCmd (s : StoreState) : LaneCmd → StoreState
  | LaneCmd.left => moveLeft s
  | LaneCmd.right => moveRight s

/-- The full command set of the store's actions object. -/
inductive StoreOp
  | opStartGame
  | opEndGame
  | opMoveLeft
  | opMoveRight
  | opJump
  | opLand
  | opSetScore (v : ℚ)
  | opIncreaseSpeed (d : ℚ)
  | opSetCommentary (t : String)

/-- Apply one store action. -/
def applyOp (s : StoreState) : StoreOp → StoreState
  | StoreOp.opStartGame => startGame s
  | StoreOp.opEndGame => endGame s
  | StoreOp.opMoveLeft => moveLeft s
  | StoreOp.opMoveRight => moveRight s
  | StoreOp.opJump => jump s
  | StoreOp.opLand => land s
  | StoreOp.opSetScore v => setScore v s
  | StoreOp.opIncreaseSpeed d => increaseSpeed d s
  | StoreOp.opSetCommentary t => setCommentary t s

/-! ## Verification artifacts: invariant of the jump integrator and
concrete states used to instantiate the theorems below -/

/-- Invariant of the discrete jump trajectory after total time t and
squared-delta sum S, for frame deltas bounded by eps: while airborne the
offset and velocity follow the closed forms with a +20*S discretization
term and the time stays below 3/4 + eps; once landed everything is zero
and at least 3/4 elapsed. -/
def JumpInv (eps t S : ℚ) (j : JumpState) : Prop :=
  0 ≤ t ∧ 0 ≤ S ∧ S ≤ eps * t ∧
  (j.isJumping = true →
    j.jumpHeightOffset = 15 * t - 20 * t ^ 2 + 20 * S ∧
    j.verticalVelocity = 15 - 40 * t ∧
    t < 3/4 + eps) ∧
  (j.isJumping = false →
    j.jumpHeightOffset = 0 ∧ j.verticalVelocity = 0 ∧ 3/4 ≤ t)

/-- A mid-run store: PLAYING, center lane, base speed, not jumping. -/
def sPlay : StoreState :=
  { gameState := GameState.PLAYING, score := 0, highScore := 0,
    currentLane := 0, speed := 30, gameSpeedMultiplier := 1,
    isJumping := false, lastRunCommentary := none }

/-- Spawn randomness whose main roll suppresses a bonus or laser. -/
def rNone : SpawnRand :=
  { rand := 1, rand2 := 1, shuffled := [-1, 0, 1], ids := [] }

/-- One laser two units short of the collision band. -/
def mLaser : ManagerState :=
  { obstacles := [{ id := "h", lane := 0, z := -2, type := ObstacleType.laser }],
    lastSpawnTime := 0, distance := 0 }

/-- One laser that will sit exactly on the band edge z = 3/2 after the
next frame of movement. -/
def mLaserEdge : ManagerState :=
  { obstacles := [{ id := "h", lane := 0, z := -3/2, type := ObstacleType.laser }],
    lastSpawnTime := 0, distance := 0 }

/-- One bonus that will sit exactly on the band edge z = 3/2 after the
next frame of movement, in the player's lane. -/
def mBonusEdge : ManagerState :=
  { obstacles := [{ id := "b", lane := 0, z := -3/2, type := ObstacleType.bonus }],
    lastSpawnTime := 0, distance := 0 }

/-- Two entities that cross the despawn threshold on the next frame. -/
def mDesp : ManagerState :=
  { obstacles := [{ id := "a", lane := 0, z := 3, type := ObstacleType.obstacle },
                  { id := "c", lane := 1, z := 4, type := ObstacleType.obstacle }],
    lastSpawnTime := 0, distance := 0 }

/-- A game-over store whose highScore already dominates the score, as any
store produced by endGame has. -/
def sOverGuard : StoreState :=
  { gameState := GameState.GAME_OVER, score := 100, highScore := 100,
    currentLane := 0, speed := 30, gameSpeedMultiplier := 1,
    isJumping := false, lastRunCommentary := none }

/-- A game-over store whose score exceeds highScore. -/
def sOverBad : StoreState :=
  { gameState := GameState.GAME_OVER, score := 500, highScore := 0,
    currentLane := 0, speed := 30, gameSpeedMultiplier := 1,
    isJumping := false, lastRunCommentary := none }

/-- The store right after a run ended with score 700 and no commentary
yet. -/
def uiOverStore : StoreState :=
  { gameState := GameState.GAME_OVER, score := 700, highScore := 700,
    currentLane := 0, speed := 30, gameSpeedMultiplier := 2,
    isJumping := false, lastRunCommentary := none }

def ui0 : UiSystemState := { store := uiOverStore, loadingCommentary := false, inFlight := 0 }
def ui1 : UiSystemState := { store := uiOverStore, loadingCommentary := true, inFlight := 1 }
def ui2 : UiSystemState := { store := startGame uiOverStore, loadingCommentary := true, inFlight := 1 }
def ui3 : UiSystemState :=
  { store := setCommentary "stale roast of the previous run" (startGame uiOverStore),
    loadingCommentary := false, inFlight := 0 }

end Runner

namespace Runner

/-! ## Helper lemmas -/

theorem collideRev_cons_eq (pl : Int) (jmp : Bool) (s : StoreState)
    (o : ObstacleData) (rest : List ObstacleData) :
    ((collideRev pl jmp s (o :: rest)
        = ((collideRev pl jmp s rest).1, o :: (collideRev pl jmp s rest).2))
      ∧ (inBand o.z = false
         ∨ (o.type = ObstacleType.laser ∧ jmp = true)
         ∨ (o.type ≠ ObstacleType.laser ∧ o.lane ≠ pl)
         ∨ (o.type = ObstacleType.obstacle ∧ o.lane = pl ∧ jmp = true)))
    ∨ ((collideRev pl jmp s (o :: rest) = (endGame s, o :: rest))
        ∧ jmp = false ∧ inBand o.z = true
        ∧ (o.type = ObstacleType.laser
           ∨ (o.type = ObstacleType.obstacle ∧ o.lane = pl)))
    ∨ ((collideRev pl jmp s (o :: rest)
          = collideRev pl jmp (setScore (s.score + 500) s) rest)
        ∧ o.type = ObstacleType.bonus ∧ o.lane = pl ∧ inBand o.z = true) := by
  by_cases hb : inBand o.z = true
  · cases hty : o.type with
    | laser =>
      cases jmp with
      | false =>
        exact Or.inr (Or.inl ⟨by simp [collideRev, hb, hty], rfl, hb, Or.inl rfl⟩)
      | true =>
        exact Or.inl ⟨by simp [collideRev, hb, hty], Or.inr (Or.inl ⟨rfl, rfl⟩)⟩
    | bonus =>
      by_cases hl : o.lane = pl
      · exact Or.inr (Or.inr ⟨by simp [collideRev, hb, hty, hl], rfl, hl, hb⟩)
      · exact Or.inl ⟨by simp [collideRev, hb, hty, hl],
          Or.inr (Or.inr (Or.inl ⟨by decide, hl⟩))⟩
    | obstacle =>
      by_cases hl : o.lane = pl
      · cases jmp with
        | false =>
          exact Or.inr (Or.inl ⟨by simp [collideRev, hb, hty, hl], rfl, hb,
            Or.inr ⟨rfl, hl⟩⟩)
        | true =>
          exact Or.inl ⟨by simp [collideRev, hb, hty, hl],
            Or.inr (Or.inr (Or.inr ⟨rfl, hl, rfl⟩))⟩
      · exact Or.inl ⟨by simp [collideRev, hb, hty, hl],
          Or.inr (Or.inr (Or.inl ⟨by decide, hl⟩))⟩
  · exact Or.inl ⟨by simp [collideRev, hb], Or.inl (by simpa using hb)⟩

theorem collideRev_snd_subset (pl : Int) (jmp : Bool) :
    ∀ (l : List ObstacleData) (s : StoreState), (collideRev pl jmp s l).2 ⊆ l := by
  intro l
  induction l with
  | nil => intro s; simp [collideRev]
  | cons o rest ih =>
    intro s
    rcases collideRev_cons_eq pl jmp s o rest with ⟨heq, _⟩ | ⟨heq, _⟩ | ⟨heq, _⟩
    · rw [heq]
      exact List.cons_subset_cons o (ih s)
    · rw [heq]
      exact List.Subset.refl _
    · rw [heq]
      exact (ih (setScore (s.score + 500) s)).trans (List.subset_cons_self o rest)

theorem collideRev_fst_score_le (pl : Int) (jmp : Bool) :
    ∀ (l : List ObstacleData) (s : StoreState),
      s.score ≤ (collideRev pl jmp s l).1.score := by
  intro l
  induction l with
  | nil => intro s; exact le_refl _
  | cons o rest ih =>
    intro s
    rcases collideRev_cons_eq pl jmp s o rest with ⟨heq, _⟩ | ⟨heq, _⟩ | ⟨heq, _⟩
    · rw [heq]
      exact ih s
    · rw [heq]
      exact le_refl _
    · rw [heq]
      have h := ih (setScore (s.score + 500) s)
      rw [show (setScore (s.score + 500) s).score = s.score + 500 from rfl] at h
      linarith

theorem collideRev_fst_multiplier (pl : Int) (jmp : Bool) :
    ∀ (l : List ObstacleData) (s : StoreState),
      (collideRev pl jmp s l).1.gameSpeedMultiplier = s.gameSpeedMultiplier := by
  intro l
  induction l with
  | nil => intro s; rfl
  | cons o rest ih =>
    intro s
    rcases collideRev_cons_eq pl jmp s o rest with ⟨heq, _⟩ | ⟨heq, _⟩ | ⟨heq, _⟩
    · rw [heq]
      exact ih s
    · rw [heq]
      rfl
    · rw [heq]
      exact ih (setScore (s.score + 500) s)

theorem collideRev_fst_gameState_of_jump (pl : Int) :
    ∀ (l : List ObstacleData) (s : StoreState),
      (collideRev pl true s l).1.gameState = s.gameState := by
  intro l
  induction l with
  | nil => intro s; rfl
  | cons o rest ih =>
    intro s
    rcases collideRev_cons_eq pl true s o rest with ⟨heq, _⟩ | ⟨_, hfalse, _⟩ | ⟨heq, _⟩
    · rw [heq]
      exact ih s
    · cases hfalse
    · rw [heq]
      exact ih (setScore (s.score + 500) s)

theorem collideRev_mem_of_ne_bonus (pl : Int) (jmp : Bool) (x : ObstacleData)
    (hx : x.type ≠ ObstacleType.bonus) :
    ∀ (l : List ObstacleData) (s : StoreState),
      x ∈ l → x ∈ (collideRev pl jmp s l).2 := by
  intro l
  induction l with
  | nil => intro s h; cases h
  | cons o rest ih =>
    intro s hmem
    rcases collideRev_cons_eq pl jmp s o rest with ⟨heq, _⟩ | ⟨heq, _⟩ | ⟨heq, hbon, _⟩
    · rw [heq]
      rcases List.mem_cons.mp hmem with rfl | hmem2
      · exact List.mem_cons_self _ _
      · exact List.mem_cons_of_mem o (ih s hmem2)
    · rw [heq]
      exact hmem
    · rw [heq]
      rcases List.mem_cons.mp hmem with rfl | hmem2
      · exact absurd hbon hx
      · exact ih (setScore (s.score + 500) s) hmem2

theorem collideRev_fst_gameOver (pl : Int) :
    ∀ (l : List ObstacleData) (s : StoreState),
      (∃ o ∈ l, o.type = ObstacleType.laser ∧ inBand o.z = true) →
      (collideRev pl false s l).1.gameState = GameState.GAME_OVER := by
  intro l
  induction l with
  | nil => intro s h; simp at h
  | cons o rest ih =>
    intro s hex
    rcases collideRev_cons_eq pl false s o rest with ⟨heq, hside⟩ | ⟨heq, _⟩ | ⟨heq, hbon, _⟩
    · rw [heq]
      apply ih s
      rcases hex with ⟨x, hxmem, hxty, hxband⟩
      rcases List.mem_cons.mp hxmem with rfl | hmem2
      · rcases hside with hbf | ⟨_, hjt⟩ | ⟨hnl, _⟩ | ⟨hob, _⟩
        · rw [hxband] at hbf
          cases hbf
        · cases hjt
        · exact absurd hxty hnl
        · rw [hxty] at hob
          cases hob
      · exact ⟨x, hmem2, hxty, hxband⟩
    · rw [heq]
      rfl
    · rw [heq]
      apply ih (setScore (s.score + 500) s)
      rcases hex with ⟨x, hxmem, hxty, hxband⟩
      rcases List.mem_cons.mp hxmem with rfl | hmem2
      · rw [hxty] at hbon
        cases hbon
      · exact ⟨x, hmem2, hxty, hxband⟩

theorem despawnBump_score (pre : List ObstacleData) (s : StoreState) :
    (despawnBump pre s).score = s.score := by
  by_cases h : 0 < pre.length - (despawnKept pre).length <;>
    simp [despawnBump, h, increaseSpeed]

theorem despawnBump_gameState (pre : List ObstacleData) (s : StoreState) :
    (despawnBump pre s).gameState = s.gameState := by
  by_cases h : 0 < pre.length - (despawnKept pre).length <;>
    simp [despawnBump, h, increaseSpeed]

theorem despawnBump_isJumping (pre : List ObstacleData) (s : StoreState) :
    (despawnBump pre s).isJumping = s.isJumping := by
  by_cases h : 0 < pre.length - (despawnKept pre).length <;>
    simp [despawnBump, h, increaseSpeed]

theorem despawnBump_multiplier (pre : List ObstacleData) (s : StoreState) :
    (despawnBump pre s).gameSpeedMultiplier
      = s.gameSpeedMultiplier
        + (2/100) * ((pre.length - (despawnKept pre).length : ℕ) : ℚ) := by
  by_cases h : 0 < pre.length - (despawnKept pre).length
  · simp [despawnBump, h, increaseSpeed]
  · have h0 : pre.length - (despawnKept pre).length = 0 := by omega
    simp [despawnBump, h, h0]

theorem obstacleFrame_fst (elapsed delta : ℚ) (r : SpawnRand) (s : StoreState)
    (m : ManagerState) (h : s.gameState = GameState.PLAYING) :
    (obstacleFrame elapsed delta r s m).1
      = (collideRev (despawnBump (preDespawnList elapsed delta r s m) s).currentLane
          (despawnBump (preDespawnList elapsed delta r s m) s).isJumping
          (despawnBump (preDespawnList elapsed delta r s m) s)
          (despawnKept (preDespawnList elapsed delta r s m)).reverse).1 := by
  simp [obstacleFrame, h]

theorem obstacleFrame_obstacles (elapsed delta : ℚ) (r : SpawnRand) (s : StoreState)
    (m : ManagerState) (h : s.gameState = GameState.PLAYING) :
    (obstacleFrame elapsed delta r s m).2.obstacles
      = (collideRev (despawnBump (preDespawnList elapsed delta r s m) s).currentLane
          (despawnBump (preDespawnList elapsed delta r s m) s).isJumping
          (despawnBump (preDespawnList elapsed delta r s m) s)
          (despawnKept (preDespawnList elapsed delta r s m)).reverse).2.reverse := by
  simp [obstacleFrame, h]

theorem foldl_lane_bounds (cmds : List LaneCmd) :
    ∀ s : StoreState, -1 ≤ s.currentLane → s.currentLane ≤ 1 →
      -1 ≤ (cmds.foldl applyLaneCmd s).currentLane
      ∧ (cmds.foldl applyLaneCmd s).currentLane ≤ 1 := by
  induction cmds with
  | nil => intro s h1 h2; exact ⟨h1, h2⟩
  | cons c cs ih =>
    intro s h1 h2
    rw [List.foldl_cons]
    apply ih
    · cases c
      · simp only [applyLaneCmd, moveLeft, Lane.LEFT]
        omega
      · simp only [applyLaneCmd, moveRight, Lane.RIGHT]
        omega
    · cases c
      · simp only [applyLaneCmd, moveLeft, Lane.LEFT]
        omega
      · simp only [applyLaneCmd, moveRight, Lane.RIGHT]
        omega

/-- Claim C10: highScore is monotonically non-decreasing across every
store operation; startGame resets score to 0 but leaves highScore
unchanged, and endGame replaces it with max(score, highScore). -/
theorem highScore_monotone_ops (s : StoreState) (op : StoreOp) :
    s.highScore ≤ (applyOp s op).highScore
    ∧ (startGame s).highScore = s.highScore
    ∧ (startGame s).score = 0
    ∧ (endGame s).highScore = max s.score s.highScore := by
  refine ⟨?_, rfl, rfl, rfl⟩
  cases op with
  | opStartGame => exact le_refl _
  | opEndGame => exact le_max_right _ _
  | opMoveLeft => exact le_refl _
  | opMoveRight => exact le_refl _
  | opJump =>
    by_cases h : s.isJumping = true <;> simp [applyOp, jump, h]
  | opLand => exact le_refl _
  | opSetScore v => exact le_refl _
  | opIncreaseSpeed d => exact le_refl _
  | opSetCommentary t => exact le_refl _

/-- Claim C6: from the center lane, any sequence of moveLeft/moveRight
commands keeps the lane inside the set of lanes -1, 0, +1, and the moves
are no-ops at the track edges. -/
theorem lane_clamp (s : StoreState) (hs : s.currentLane = Lane.CENTER)
    (cmds : List LaneCmd) :
    ((cmds.foldl applyLaneCmd s).currentLane = -1
      ∨ (cmds.foldl applyLaneCmd s).currentLane = 0
      ∨ (cmds.foldl applyLaneCmd s).currentLane = 1)
    ∧ (∀ s1 : StoreState, s1.currentLane = -1 → moveLeft s1 = s1)
    ∧ (∀ s1 : StoreState, s1.currentLane = 1 → moveRight s1 = s1) := by
  refine ⟨?_, ?_, ?_⟩
  · have hb := foldl_lane_bounds cmds s (by rw [hs]; decide) (by rw [hs]; decide)
    omega
  · intro s1 h1
    cases s1
    simp only [moveLeft] at *
    simp [h1, Lane.LEFT]
  · intro s1 h1
    cases s1
    simp only [moveRight] at *
    simp [h1, Lane.RIGHT]

/-- Witness for C6 at a concrete input: two lefts from the initial store
end at lane -1, inside the allowed set. -/
theorem lane_clamp_witness :
    initialStore.currentLane = Lane.CENTER
    ∧ (([LaneCmd.left, LaneCmd.left].foldl applyLaneCmd initialStore).currentLane = -1
      ∨ ([LaneCmd.left, LaneCmd.left].foldl applyLaneCmd initialStore).currentLane = 0
      ∨ ([LaneCmd.left, LaneCmd.left].foldl applyLaneCmd initialStore).currentLane = 1) :=
  ⟨rfl, (lane_clamp initialStore rfl [LaneCmd.left, LaneCmd.left]).1⟩

/-- Counterexample to C3 as stated: endGame is not guarded on the
GAME_OVER phase; called on a game-over store whose score exceeds its
highScore it rewrites highScore, so it is not a no-op there. -/
theorem endRun_unguarded_cex :
    sOverBad.gameState = GameState.GAME_OVER
    ∧ endGame sOverBad ≠ sOverBad
    ∧ (endGame sOverBad).highScore = 500
    ∧ sOverBad.highScore = 0 := by
  refine ⟨rfl, ?_, ?_, rfl⟩
  · intro h
    have := congrArg StoreState.highScore h
    norm_num [endGame, sOverBad] at this
  · norm_num [endGame, sOverBad]

/-- Claim C3 (amended): endGame sets highScore to max(highScore, score)
and the phase to GameOver; there is no explicit GameOver guard, but
calling it when the phase is already GameOver changes nothing provided
highScore already dominates score, which holds in every GameOver state
the program reaches (score is only written during PLAYING frames). -/
theorem endRun_spec (s : StoreState) :
    (endGame s).highScore = max s.highScore s.score
    ∧ (endGame s).gameState = GameState.GAME_OVER
    ∧ (s.gameState = GameState.GAME_OVER → s.score ≤ s.highScore →
        endGame s = s) := by
  refine ⟨max_comm s.score s.highScore, rfl, ?_⟩
  intro hphase hle
  cases s
  simp only at hphase hle
  simp [endGame, hphase, max_eq_right hle]

/-- Witness for C3 at a concrete input: on a game-over store whose
highScore dominates its score, endGame changes nothing. -/
theorem endRun_spec_witness :
    (sOverGuard.gameState = GameState.GAME_OVER ∧ sOverGuard.score ≤ sOverGuard.highScore)
    ∧ endGame sOverGuard = sOverGuard :=
  ⟨⟨rfl, le_refl _⟩, (endRun_spec sOverGuard).2.2 rfl (le_refl _)⟩

/-- Claim C8 (refuted by this trace; recorded as a code bug): the UI
applies a resolved commentary response with no phase or run-generation
check, so a request issued at game over and resolving after the next
startGame writes its stale text into the new run's commentary state. -/
theorem stale_commentary_applied :
    UiStep ui0 ui1 ∧ UiStep ui1 ui2 ∧ UiStep ui2 ui3
    ∧ ui3.store.gameState = GameState.PLAYING
    ∧ ui3.store.lastRunCommentary = some "stale roast of the previous run" := by
  refine ⟨?_, ?_, ?_, rfl, rfl⟩
  · exact UiStep.requestCommentary ui0 rfl rfl rfl
  · exact UiStep.pressStart ui1 (Or.inr rfl)
  · exact UiStep.resolveCommentary ui2 "stale roast of the previous run" (by decide)

theorem obstacleFrame_score_le (elapsed delta : ℚ) (r : SpawnRand)
    (s : StoreState) (m : ManagerState) :
    s.score ≤ (obstacleFrame elapsed delta r s m).1.score := by
  by_cases h : s.gameState = GameState.PLAYING
  · rw [obstacleFrame_fst elapsed delta r s m h]
    have hc := collideRev_fst_score_le
      (despawnBump (preDespawnList elapsed delta r s m) s).currentLane
      (despawnBump (preDespawnList elapsed delta r s m) s).isJumping
      (despawnKept (preDespawnList elapsed delta r s m)).reverse
      (despawnBump (preDespawnList elapsed delta r s m) s)
    rw [despawnBump_score] at hc
    exact hc
  · simp [obstacleFrame, h]

/-- Claim C7: across every step the program performs, if the phase is
PLAYING before and after the step then the score does not decrease (the
only in-run score change is the +500 bonus pickup inside a frame). -/
theorem score_monotone_playing (p q : StoreState × ManagerState) (h : Step p q)
    (hp : p.1.gameState = GameState.PLAYING)
    (hq : q.1.gameState = GameState.PLAYING) :
    p.1.score ≤ q.1.score := by
  cases h with
  | frame elapsed delta r s m => exact obstacleFrame_score_le elapsed delta r s m
  | uiMoveLeft s m hg => exact le_refl _
  | uiMoveRight s m hg => exact le_refl _
  | uiJump s m hg =>
    by_cases hj : s.isJumping = true <;> simp [jump, hj]
  | playerLand s m => exact le_refl _
  | uiStart s m hg =>
    rcases hg with hmenu | hover
    · rw [hp] at hmenu
      cases hmenu
    · rw [hp] at hover
      cases hover
  | uiCommentary s m txt => exact le_refl _

/-- Witness for C7 at a concrete input: a moveLeft step inside a playing
run keeps the score. -/
theorem score_monotone_playing_witness :
    Step (sPlay, mLaser) (moveLeft sPlay, mLaser)
    ∧ sPlay.gameState = GameState.PLAYING
    ∧ (moveLeft sPlay).gameState = GameState.PLAYING
    ∧ sPlay.score ≤ (moveLeft sPlay).score :=
  ⟨Step.uiMoveLeft sPlay mLaser rfl, rfl, rfl,
    score_monotone_playing (sPlay, mLaser) (moveLeft sPlay, mLaser)
      (Step.uiMoveLeft sPlay mLaser rfl) rfl rfl⟩

/-- Claim C1 (amended: the collision band is the open interval
(-1.5, 1.5) — the code compares strictly on both sides): during a
PLAYING frame, a laser entity whose moved position lies strictly inside
the band ends the run when the player is not jumping, whatever the
player's lane; when the player is jumping no transition occurs and the
laser stays in the list to despawn normally; and the collision walk
stops at a fatal laser, returning every remaining entity untouched. -/
theorem hazard_requires_jump (elapsed delta : ℚ) (r : SpawnRand)
    (s : StoreState) (m : ManagerState)
    (hplay : s.gameState = GameState.PLAYING)
    (o : ObstacleData) (ho : o ∈ m.obstacles)
    (hty : o.type = ObstacleType.laser)
    (hlo : -(3/2) < o.z + s.speed * s.gameSpeedMultiplier * delta)
    (hhi : o.z + s.speed * s.gameSpeedMultiplier * delta < 3/2) :
    (s.isJumping = false →
      (obstacleFrame elapsed delta r s m).1.gameState = GameState.GAME_OVER)
    ∧ (s.isJumping = true →
      (obstacleFrame elapsed delta r s m).1.gameState = GameState.PLAYING
      ∧ { o with z := o.z + s.speed * s.gameSpeedMultiplier * delta }
          ∈ (obstacleFrame elapsed delta r s m).2.obstacles)
    ∧ (∀ (pl : Int) (s2 : StoreState) (rest : List ObstacleData),
        collideRev pl false s2
          ({ o with z := o.z + s.speed * s.gameSpeedMultiplier * delta } :: rest)
          = (endGame s2,
             { o with z := o.z + s.speed * s.gameSpeedMultiplier * delta } :: rest)) := by
  have h1 : ({ o with z := o.z + s.speed * s.gameSpeedMultiplier * delta } : ObstacleData)
      ∈ m.obstacles.map (fun x => { x with z := x.z + s.speed * s.gameSpeedMultiplier * delta }) :=
    List.mem_map_of_mem _ ho
  have hmemPre : ({ o with z := o.z + s.speed * s.gameSpeedMultiplier * delta } : ObstacleData)
      ∈ preDespawnList elapsed delta r s m := by
    by_cases hdue : spawnDue elapsed s m = true
    · simp only [preDespawnList, hdue, if_true]
      exact List.mem_append_left _ h1
    · simp only [preDespawnList]
      rw [if_neg hdue]
      exact h1
  have hkept : ({ o with z := o.z + s.speed * s.gameSpeedMultiplier * delta } : ObstacleData)
      ∈ despawnKept (preDespawnList elapsed delta r s m) := by
    unfold despawnKept
    rw [List.mem_filter]
    refine ⟨hmemPre, ?_⟩
    simp only [decide_eq_true_eq, DESPAWN_Z]
    linarith
  have hkeptRev : ({ o with z := o.z + s.speed * s.gameSpeedMultiplier * delta } : ObstacleData)
      ∈ (despawnKept (preDespawnList elapsed delta r s m)).reverse :=
    List.mem_reverse.mpr hkept
  have hband : inBand ({ o with z := o.z + s.speed * s.gameSpeedMultiplier * delta } : ObstacleData).z = true := by
    simp only [inBand, COLLISION_THRESHOLD, Bool.and_eq_true, decide_eq_true_eq]
    constructor
    · linarith
    · linarith
  refine ⟨?_, ?_, ?_⟩
  · intro hj
    rw [obstacleFrame_fst elapsed delta r s m hplay]
    have hjmp : (despawnBump (preDespawnList elapsed delta r s m) s).isJumping = false := by
      rw [despawnBump_isJumping]
      exact hj
    rw [hjmp]
    exact collideRev_fst_gameOver _ _ _
      ⟨{ o with z := o.z + s.speed * s.gameSpeedMultiplier * delta }, hkeptRev, hty, hband⟩
  · intro hj
    have hjmp : (despawnBump (preDespawnList elapsed delta r s m) s).isJumping = true := by
      rw [despawnBump_isJumping]
      exact hj
    constructor
    · rw [obstacleFrame_fst elapsed delta r s m hplay, hjmp,
        collideRev_fst_gameState_of_jump, despawnBump_gameState]
      exact hplay
    · rw [obstacleFrame_obstacles elapsed delta r s m hplay]
      apply List.mem_reverse.mpr
      have hne : ({ o with z := o.z + s.speed * s.gameSpeedMultiplier * delta } : ObstacleData).type
          ≠ ObstacleType.bonus := by
        simp [hty]
      exact collideRev_mem_of_ne_bonus _ _ _ hne _ _ hkeptRev
  · intro pl s2 rest
    simp [collideRev, hband, hty]

/-- Witness for C1 at a concrete input: laser at z = -2 moved by 3 into
the band with the player grounded ends the run; the same frame with the
jump flag set stays in PLAYING. -/
theorem hazard_requires_jump_witness :
    sPlay.gameState = GameState.PLAYING
    ∧ sPlay.isJumping = false
    ∧ (obstacleFrame 0 (1/10) rNone sPlay mLaser).1.gameState = GameState.GAME_OVER :=
  ⟨rfl, rfl,
    (hazard_requires_jump 0 (1/10) rNone sPlay mLaser rfl
      { id := "h", lane := 0, z := -2, type := ObstacleType.laser }
      (by simp [mLaser]) rfl (by norm_num [sPlay]) (by norm_num [sPlay])).1 rfl⟩

/-- Counterexample to C1 as stated: a laser sitting exactly at z = 3/2 —
inside the claimed closed band [-1.5, 1.5] — with the player grounded
does not end the run: the code's strict comparison excludes the
endpoint, so the frame stays in PLAYING. -/
theorem hazard_band_boundary_cex :
    sPlay.gameState = GameState.PLAYING
    ∧ sPlay.isJumping = false
    ∧ (obstacleFrame 0 (1/10) rNone sPlay mLaserEdge).2.obstacles
        = [{ id := "h", lane := 0, z := 3/2, type := ObstacleType.laser }]
    ∧ (-(3/2) : ℚ) ≤ 3/2 ∧ (3/2 : ℚ) ≤ 3/2
    ∧ (obstacleFrame 0 (1/10) rNone sPlay mLaserEdge).1.gameState = GameState.PLAYING := by
  refine ⟨rfl, rfl, ?_, by norm_num, le_refl _, ?_⟩
  · norm_num [obstacleFrame, preDespawnList, spawnDue, spawnEntities, collideRev, inBand,
      despawnKept, despawnBump, endGame, setScore, increaseSpeed, sPlay, rNone, mLaserEdge,
      DESPAWN_Z, COLLISION_THRESHOLD, Lane.LEFT, Lane.CENTER, Lane.RIGHT, INITIAL_LANE,
      INITIAL_SPEED]
  · norm_num [obstacleFrame, preDespawnList, spawnDue, spawnEntities, collideRev, inBand,
      despawnKept, despawnBump, endGame, setScore, increaseSpeed, sPlay, rNone, mLaserEdge,
      DESPAWN_Z, COLLISION_THRESHOLD, Lane.LEFT, Lane.CENTER, Lane.RIGHT, INITIAL_LANE,
      INITIAL_SPEED]

/-- Claim C2 (amended: the collision band is the open interval
(-1.5, 1.5) — the code compares strictly on both sides): when the
collision walk reaches an entity strictly inside the band in the
player's lane, a bonus adds exactly 500 to the freshly read score and is
removed at once, never seen again by this frame's walk; an obstacle ends
the run when the player is not jumping and is left untouched (to despawn
normally) when the player is jumping. -/
theorem bonus_obstacle_lane_collision (pl : Int) (jmp : Bool) (s : StoreState)
    (o : ObstacleData) (rest : List ObstacleData)
    (hlo : -(3/2) < o.z) (hhi : o.z < 3/2) (hlane : o.lane = pl) :
    (o.type = ObstacleType.bonus →
      collideRev pl jmp s (o :: rest)
        = collideRev pl jmp (setScore (s.score + 500) s) rest
      ∧ (setScore (s.score + 500) s).score = s.score + 500
      ∧ (collideRev pl jmp s (o :: rest)).2 ⊆ rest)
    ∧ (o.type = ObstacleType.obstacle →
      (jmp = false →
        collideRev pl false s (o :: rest) = (endGame s, o :: rest)
        ∧ (endGame s).gameState = GameState.GAME_OVER)
      ∧ (jmp = true →
        (collideRev pl true s (o :: rest)).1 = (collideRev pl true s rest).1
        ∧ (collideRev pl true s (o :: rest)).2 = o :: (collideRev pl true s rest).2)) := by
  have hband : inBand o.z = true := by
    simp only [inBand, COLLISION_THRESHOLD, Bool.and_eq_true, decide_eq_true_eq]
    constructor
    · linarith
    · linarith
  constructor
  · intro hty
    have heq : collideRev pl jmp s (o :: rest)
        = collideRev pl jmp (setScore (s.score + 500) s) rest := by
      simp [collideRev, hband, hty, hlane]
    refine ⟨heq, rfl, ?_⟩
    rw [heq]
    exact collideRev_snd_subset pl jmp rest (setScore (s.score + 500) s)
  · intro hty
    constructor
    · intro hj
      subst hj
      exact ⟨by simp [collideRev, hband, hty, hlane], rfl⟩
    · intro hj
      subst hj
      constructor
      · simp [collideRev, hband, hty, hlane]
      · simp [collideRev, hband, hty, hlane]

/-- Witness for C2 at a concrete input: a bonus at z = 1 in the player's
lane is consumed for exactly +500 and dropped from the walk. -/
theorem bonus_obstacle_lane_collision_witness :
    (-(3/2) : ℚ) < 1 ∧ (1 : ℚ) < 3/2
    ∧ collideRev 0 false sPlay
        [{ id := "b", lane := 0, z := 1, type := ObstacleType.bonus }]
        = collideRev 0 false (setScore (sPlay.score + 500) sPlay) []
    ∧ (setScore (sPlay.score + 500) sPlay).score = sPlay.score + 500 :=
  ⟨by norm_num, by norm_num,
    ((bonus_obstacle_lane_collision 0 false sPlay
      { id := "b", lane := 0, z := 1, type := ObstacleType.bonus } []
      (by norm_num) (by norm_num) rfl).1 rfl).1,
    ((bonus_obstacle_lane_collision 0 false sPlay
      { id := "b", lane := 0, z := 1, type := ObstacleType.bonus } []
      (by norm_num) (by norm_num) rfl).1 rfl).2.1⟩

/-- Counterexample to C2 as stated: a bonus sitting exactly at z = 3/2 —
inside the claimed closed band [-1.5, 1.5] — in the player's lane is
neither collected nor removed: the code's strict comparison excludes the
endpoint, so the score stays 0 and the entity stays in the list. -/
theorem bonus_band_boundary_cex :
    sPlay.currentLane = 0
    ∧ sPlay.isJumping = false
    ∧ (-(3/2) : ℚ) ≤ 3/2 ∧ (3/2 : ℚ) ≤ 3/2
    ∧ (obstacleFrame 0 (1/10) rNone sPlay mBonusEdge).1.score = 0
    ∧ (obstacleFrame 0 (1/10) rNone sPlay mBonusEdge).2.obstacles
        = [{ id := "b", lane := 0, z := 3/2, type := ObstacleType.bonus }] := by
  refine ⟨rfl, rfl, by norm_num, le_refl _, ?_, ?_⟩
  · norm_num [obstacleFrame, preDespawnList, spawnDue, spawnEntities, collideRev, inBand,
      despawnKept, despawnBump, endGame, setScore, increaseSpeed, sPlay, rNone, mBonusEdge,
      DESPAWN_Z, COLLISION_THRESHOLD, Lane.LEFT, Lane.CENTER, Lane.RIGHT, INITIAL_LANE,
      INITIAL_SPEED]
  · norm_num [obstacleFrame, preDespawnList, spawnDue, spawnEntities, collideRev, inBand,
      despawnKept, despawnBump, endGame, setScore, increaseSpeed, sPlay, rNone, mBonusEdge,
      DESPAWN_Z, COLLISION_THRESHOLD, Lane.LEFT, Lane.CENTER, Lane.RIGHT, INITIAL_LANE,
      INITIAL_SPEED]

/-- Claim C4: during a PLAYING frame every entity whose position exceeds
the despawn threshold (+5) after the move/spawn stages is removed
uncollected, and gameSpeedMultiplier grows by exactly 0.02 times the
number of entities the despawn filter removed that frame — and by
nothing else. -/
theorem despawn_difficulty_scaling (elapsed delta : ℚ) (r : SpawnRand)
    (s : StoreState) (m : ManagerState)
    (hplay : s.gameState = GameState.PLAYING) :
    (∀ o ∈ preDespawnList elapsed delta r s m, DESPAWN_Z < o.z →
      o ∉ (obstacleFrame elapsed delta r s m).2.obstacles)
    ∧ (obstacleFrame elapsed delta r s m).1.gameSpeedMultiplier
        = s.gameSpeedMultiplier
          + (2/100) * (((preDespawnList elapsed delta r s m).length
              - (despawnKept (preDespawnList elapsed delta r s m)).length : ℕ) : ℚ) := by
  constructor
  · intro o hoPre hz hmemOut
    rw [obstacleFrame_obstacles elapsed delta r s m hplay] at hmemOut
    have h2 := List.mem_reverse.mp hmemOut
    have h3 := collideRev_snd_subset _ _ _ _ h2
    have h4 := List.mem_reverse.mp h3
    unfold despawnKept at h4
    rw [List.mem_filter] at h4
    have h5 := of_decide_eq_true h4.2
    rw [DESPAWN_Z] at hz h5
    linarith
  · rw [obstacleFrame_fst elapsed delta r s m hplay, collideRev_fst_multiplier,
      despawnBump_multiplier]

/-- Witness for C4 at a concrete input: two obstacles cross the
threshold in one frame and the multiplier rises by exactly 0.02 * 2. -/
theorem despawn_difficulty_scaling_witness :
    sPlay.gameState = GameState.PLAYING
    ∧ (obstacleFrame 0 (1/10) rNone sPlay mDesp).1.gameSpeedMultiplier
        = sPlay.gameSpeedMultiplier
          + (2/100) * (((preDespawnList 0 (1/10) rNone sPlay mDesp).length
              - (despawnKept (preDespawnList 0 (1/10) rNone sPlay mDesp)).length : ℕ) : ℚ)
    ∧ (obstacleFrame 0 (1/10) rNone sPlay mDesp).1.gameSpeedMultiplier = 1 + 4/100 :=
  ⟨rfl, (despawn_difficulty_scaling 0 (1/10) rNone sPlay mDesp rfl).2,
    by norm_num [obstacleFrame, preDespawnList, spawnDue, spawnEntities, collideRev, inBand,
      despawnKept, despawnBump, endGame, setScore, increaseSpeed, sPlay, rNone, mDesp,
      DESPAWN_Z, COLLISION_THRESHOLD, Lane.LEFT, Lane.CENTER, Lane.RIGHT, INITIAL_LANE,
      INITIAL_SPEED]⟩

/-- Claim C9: one spawn event creates at most two entities; a two-entity
wave is two obstacles in two distinct lanes drawn from the shuffled lane
permutation; every wave leaves at least one of the three lanes with no
entity in it; and a wave containing a bonus is exactly that single
bonus. -/
theorem spawn_wave_shape (r : SpawnRand) (hperm : r.shuffled.Perm [-1, 0, 1]) :
    (spawnEntities r).length ≤ 2
    ∧ ((spawnEntities r).length = 2 →
        (∀ o ∈ spawnEntities r, o.type = ObstacleType.obstacle)
        ∧ ((spawnEntities r).map (fun o => o.lane)).Nodup)
    ∧ (∃ ln ∈ ([-1, 0, 1] : List Int), ∀ o ∈ spawnEntities r, o.lane ≠ ln)
    ∧ (∀ o ∈ spawnEntities r, o.type = ObstacleType.bonus → spawnEntities r = [o]) := by
  obtain ⟨rr, r2, sh, ids⟩ := r
  simp only at hperm ⊢
  have hlen : sh.length = 3 := by
    have := hperm.length_eq
    simpa using this
  rcases sh with _ | ⟨a, sh1⟩
  · simp at hlen
  rcases sh1 with _ | ⟨b, sh2⟩
  · simp at hlen
  rcases sh2 with _ | ⟨c, sh3⟩
  · simp at hlen
  rcases sh3 with _ | ⟨d, sh4⟩
  case cons.cons.cons.cons =>
    simp [List.length_cons] at hlen
  have hnd : List.Nodup [a, b, c] := hperm.nodup_iff.mpr (by decide)
  have hab : a ≠ b := by simp [List.nodup_cons] at hnd; exact hnd.1.1
  have hac : a ≠ c := by simp [List.nodup_cons] at hnd; exact hnd.1.2
  have hbc : b ≠ c := by simp [List.nodup_cons] at hnd; exact hnd.2
  have hmb : b ∈ ([-1, 0, 1] : List Int) := hperm.mem_iff.mp (by simp)
  have hmc : c ∈ ([-1, 0, 1] : List Int) := hperm.mem_iff.mp (by simp)
  by_cases h1 : rr < 15/100
  · have hsp : spawnEntities ⟨rr, r2, [a, b, c], ids⟩
        = [{ id := ids.getD 0 "", lane := Lane.CENTER, z := SPAWN_Z,
             type := ObstacleType.laser }] := by
      simp [spawnEntities, h1]
    rw [hsp]
    refine ⟨by simp, ?_, ⟨-1, by simp, ?_⟩, ?_⟩
    · intro h2
      simp at h2
    · intro o ho
      simp at ho
      rw [ho]
      simp [Lane.CENTER]
    · intro o ho hbt
      simp at ho
      rw [ho] at hbt
      simp at hbt
  · by_cases h2 : rr < 30/100
    · have hsp : spawnEntities ⟨rr, r2, [a, b, c], ids⟩
          = [{ id := ids.getD 0 "", lane := a, z := SPAWN_Z,
               type := ObstacleType.bonus }] := by
        simp [spawnEntities, h1, h2, List.range_succ, List.range_zero,
          List.filterMap_cons, List.filterMap_nil, List.filterMap_append, List.getD]
      rw [hsp]
      refine ⟨by simp, ?_, ⟨b, hmb, ?_⟩, ?_⟩
      · intro hc2
        simp at hc2
      · intro o ho
        simp at ho
        rw [ho]
        simpa using hab
      · intro o ho hbt
        simp at ho
        rw [ho]
        simp [List.getD]
    · by_cases h3 : r2 > 6/10
      · have hsp : spawnEntities ⟨rr, r2, [a, b, c], ids⟩
            = [{ id := ids.getD 0 "", lane := a, z := SPAWN_Z,
                 type := ObstacleType.obstacle }] := by
          simp [spawnEntities, h1, h2, h3, List.range_succ, List.range_zero,
            List.filterMap_cons, List.filterMap_nil, List.filterMap_append, List.getD]
        rw [hsp]
        refine ⟨by simp, ?_, ⟨b, hmb, ?_⟩, ?_⟩
        · intro hc2
          simp at hc2
        · intro o ho
          simp at ho
          rw [ho]
          simpa using hab
        · intro o ho hbt
          simp at ho
          rw [ho] at hbt
          simp at hbt
      · have hsp : spawnEntities ⟨rr, r2, [a, b, c], ids⟩
            = [{ id := ids.getD 0 "", lane := a, z := SPAWN_Z,
                 type := ObstacleType.obstacle },
               { id := ids.getD 1 "", lane := b, z := SPAWN_Z,
                 type := ObstacleType.obstacle }] := by
          simp [spawnEntities, h1, h2, h3, List.range_succ, List.range_zero,
            List.filterMap_cons, List.filterMap_nil, List.filterMap_append,
            List.getD]
        rw [hsp]
        refine ⟨by simp, ?_, ⟨c, hmc, ?_⟩, ?_⟩
        · intro _
          refine ⟨?_, ?_⟩
          · intro o ho
            simp at ho
            rcases ho with ho | ho <;> rw [ho]
          · simp [hab]
        · intro o ho
          simp at ho
          rcases ho with ho | ho <;> rw [ho]
          · simpa using hac
          · simpa using hbc
        · intro o ho hbt
          simp at ho
          rcases ho with ho | ho <;> rw [ho] at hbt <;> simp at hbt

/-- Witness for C9 at a concrete input: a two-obstacle wave from a
shuffle putting CENTER and RIGHT first leaves lane -1 free. -/
theorem spawn_wave_shape_witness :
    (([0, 1, -1] : List Int).Perm [-1, 0, 1])
    ∧ (spawnEntities { rand := 1/2, rand2 := 1/2, shuffled := [0, 1, -1], ids := [] }).length ≤ 2
    ∧ (∃ ln ∈ ([-1, 0, 1] : List Int),
        ∀ o ∈ spawnEntities { rand := 1/2, rand2 := 1/2, shuffled := [0, 1, -1], ids := [] },
          o.lane ≠ ln) :=
  ⟨by decide,
    (spawn_wave_shape { rand := 1/2, rand2 := 1/2, shuffled := [0, 1, -1], ids := [] }
      (by decide)).1,
    (spawn_wave_shape { rand := 1/2, rand2 := 1/2, shuffled := [0, 1, -1], ids := [] }
      (by decide)).2.2.1⟩

theorem sqSum_cons (d : ℚ) (l : List ℚ) : sqSum (d :: l) = d * d + sqSum l := by
  simp [sqSum]

theorem jumpStep_of_landed (d : ℚ) (j : JumpState) (hj : j.isJumping = false)
    (h0 : j.jumpHeightOffset = 0) : jumpStep d j = j := by
  simp [jumpStep, hj, h0]

theorem jumpStep_of_air_land (d : ℚ) (j : JumpState) (hj : j.isJumping = true)
    (hle : j.jumpHeightOffset + j.verticalVelocity * d ≤ 0) :
    jumpStep d j = { jumpHeightOffset := 0, verticalVelocity := 0, isJumping := false } := by
  simp [jumpStep, hj, hle]

theorem jumpStep_of_air_fly (d : ℚ) (j : JumpState) (hj : j.isJumping = true)
    (hgt : 0 < j.jumpHeightOffset + j.verticalVelocity * d) :
    jumpStep d j = { jumpHeightOffset := j.jumpHeightOffset + j.verticalVelocity * d,
                     verticalVelocity := j.verticalVelocity - GRAVITY * d,
                     isJumping := true } := by
  simp [jumpStep, hj, not_le.mpr hgt]

theorem jumpStep_inv (eps t S d : ℚ) (j : JumpState) (heps : 0 < eps)
    (hd : 0 < d) (hde : d ≤ eps) (h : JumpInv eps t S j) :
    JumpInv eps (t + d) (S + d * d) (jumpStep d j) := by
  obtain ⟨ht, hS, hSe, hair, hland⟩ := h
  have hSe2 : S + d * d ≤ eps * (t + d) := by nlinarith
  have htd : 0 ≤ t + d := by linarith
  have hTpos : 0 < t + d := by linarith
  have hSd : 0 ≤ S + d * d := by nlinarith
  cases hj : j.isJumping with
  | false =>
    obtain ⟨h0, v0, h34⟩ := hland hj
    rw [jumpStep_of_landed d j hj h0]
    refine ⟨htd, hSd, hSe2, ?_, ?_⟩
    · intro hc
      rw [hj] at hc
      cases hc
    · intro _
      exact ⟨h0, v0, by linarith⟩
  | true =>
    obtain ⟨hh, hv, htb⟩ := hair hj
    have hh' : j.jumpHeightOffset + j.verticalVelocity * d
        = 15 * (t + d) - 20 * (t + d) ^ 2 + 20 * (S + d * d) := by
      rw [hh, hv]
      ring
    by_cases hland2 : j.jumpHeightOffset + j.verticalVelocity * d ≤ 0
    · rw [jumpStep_of_air_land d j hj hland2]
      refine ⟨htd, hSd, hSe2, ?_, ?_⟩
      · intro hc
        cases hc
      · intro _
        refine ⟨rfl, rfl, ?_⟩
        rw [hh'] at hland2
        by_contra hcon
        push_neg at hcon
        have h5 : 0 < 15 * (t + d) - 20 * (t + d) ^ 2 := by
          nlinarith [mul_pos hTpos (show (0:ℚ) < 3 - 4 * (t + d) from by linarith)]
        linarith
    · push_neg at hland2
      rw [jumpStep_of_air_fly d j hj hland2]
      refine ⟨htd, hSd, hSe2, ?_, ?_⟩
      · intro _
        refine ⟨?_, ?_, ?_⟩
        · exact hh'
        · rw [hv, GRAVITY]
          ring
        · rw [hh'] at hland2
          by_contra hcon
          push_neg at hcon
          nlinarith [mul_nonneg htd (show (0:ℚ) ≤ 20 * (t + d) - 15 - 20 * eps from by linarith)]
      · intro hc
        cases hc

theorem jumpStart_inv (eps : ℚ) (heps : 0 < eps) : JumpInv eps 0 0 jumpStart := by
  refine ⟨le_refl _, le_refl _, by simp, ?_, ?_⟩
  · intro _
    refine ⟨by norm_num [jumpStart], by norm_num [jumpStart, JUMP_FORCE], by linarith⟩
  · intro hc
    cases hc

theorem jumpRunAux_inv (eps : ℚ) (heps : 0 < eps) :
    ∀ (l : List ℚ) (j : JumpState) (t S : ℚ),
      (∀ d ∈ l, 0 < d ∧ d ≤ eps) → JumpInv eps t S j →
      JumpInv eps (t + l.sum) (S + sqSum l) (jumpRunAux j l) := by
  intro l
  induction l with
  | nil =>
    intro j t S _ h
    simpa [jumpRunAux, sqSum] using h
  | cons d ds ih =>
    intro j t S hl hinv
    have hstep := jumpStep_inv eps t S d j heps
      (hl d (List.mem_cons_self d ds)).1 (hl d (List.mem_cons_self d ds)).2 hinv
    have hrec := ih (jumpStep d j) (t + d) (S + d * d)
      (fun x hx => hl x (List.mem_cons_of_mem d hx)) hstep
    simp only [jumpRunAux, List.sum_cons, sqSum_cons]
    rw [show t + (d + ds.sum) = t + d + ds.sum from by ring,
      show S + (d * d + sqSum ds) = S + d * d + sqSum ds from by ring]
    exact hrec

theorem jumpRun_inv (eps : ℚ) (heps : 0 < eps) (l : List ℚ)
    (hl : ∀ d ∈ l, 0 < d ∧ d ≤ eps) :
    JumpInv eps l.sum (sqSum l) (jumpRun l) := by
  have h := jumpRunAux_inv eps heps l jumpStart 0 0 hl (jumpStart_inv eps heps)
  simpa [jumpRun] using h

theorem exists_take_sum_between (eps : ℚ) :
    ∀ (l : List ℚ), (∀ d ∈ l, 0 < d ∧ d ≤ eps) →
      ∀ c : ℚ, 0 ≤ c → c < l.sum →
        ∃ n : ℕ, c < (l.take n).sum ∧ (l.take n).sum ≤ c + eps := by
  intro l
  induction l with
  | nil =>
    intro _ c hc hcs
    simp at hcs
    linarith
  | cons d ds ih =>
    intro hl c hc hcs
    by_cases hcd : c < d
    · have h2 := (hl d (List.mem_cons_self d ds)).2
      have ht1 : (d :: ds).take 1 = [d] := rfl
      refine ⟨1, ?_, ?_⟩
      · rw [ht1]
        simpa using hcd
      · rw [ht1]
        simp
        linarith
    · push_neg at hcd
      have hd := (hl d (List.mem_cons_self d ds)).1
      rw [List.sum_cons] at hcs
      obtain ⟨n, hn1, hn2⟩ := ih (fun x hx => hl x (List.mem_cons_of_mem d hx))
        (c - d) (by linarith) (by linarith)
      refine ⟨n + 1, ?_, ?_⟩
      · rw [List.take_succ_cons, List.sum_cons]
        linarith
      · rw [List.take_succ_cons, List.sum_cons]
        linarith

/-- Claim C5: with GRAVITY=40 and JUMP_FORCE=15, the per-frame jump
update started at height 0 with velocity 15 lands back at height 0 after
total airtime 0.75 s up to a tolerance set by the largest frame delta
eps — never before 0.75 and always once 0.75 + eps has elapsed — and the
trajectory peaks at 15^2/(2*40) = 45/16 = 2.8125 within a tolerance that
vanishes with eps, for every sequence of positive frame deltas bounded
by eps whose sum covers the airtime. -/
theorem jump_airtime_peak (eps : ℚ) (l : List ℚ) (heps : 0 < eps)
    (heps38 : eps ≤ 3/8) (hl : ∀ d ∈ l, 0 < d ∧ d ≤ eps) :
    (l.sum < 3/4 → (jumpRun l).isJumping = true)
    ∧ (3/4 + eps ≤ l.sum → (jumpRun l).isJumping = false)
    ∧ (jumpRun l).jumpHeightOffset ≤ 45/16 + 15 * eps + 20 * eps ^ 2
    ∧ (3/4 ≤ l.sum →
        ∃ n : ℕ, 45/16 - 20 * eps ^ 2 ≤ (jumpRun (l.take n)).jumpHeightOffset) := by
  obtain ⟨ht0, hS0, hSe, hair, hland⟩ := jumpRun_inv eps heps l hl
  refine ⟨?_, ?_, ?_, ?_⟩
  · intro hsum
    cases hj : (jumpRun l).isJumping
    · obtain ⟨_, _, h34⟩ := hland hj
      linarith
    · rfl
  · intro hsum
    cases hj : (jumpRun l).isJumping
    · rfl
    · obtain ⟨_, _, hlt⟩ := hair hj
      linarith
  · cases hj : (jumpRun l).isJumping
    · obtain ⟨h0, _, _⟩ := hland hj
      rw [h0]
      positivity
    · obtain ⟨hh, _, hlt⟩ := hair hj
      rw [hh]
      nlinarith [sq_nonneg (40 * l.sum - 15 - 20 * eps), hSe, heps.le, sq_nonneg eps, ht0]
  · intro hsum
    have hcnn : (0:ℚ) ≤ 3/8 - eps := by linarith
    have hcs : 3/8 - eps < l.sum := by linarith
    obtain ⟨n, hn1, hn2⟩ := exists_take_sum_between eps l hl (3/8 - eps) hcnn hcs
    have hlt : ∀ d ∈ l.take n, 0 < d ∧ d ≤ eps :=
      fun d hd => hl d (List.take_subset n l hd)
    obtain ⟨ht0', hS0', hSe', hair', hland'⟩ := jumpRun_inv eps heps (l.take n) hlt
    have hTle : (l.take n).sum ≤ 3/8 := by linarith
    cases hj : (jumpRun (l.take n)).isJumping
    · obtain ⟨_, _, h34⟩ := hland' hj
      linarith
    · obtain ⟨hh, _, _⟩ := hair' hj
      refine ⟨n, ?_⟩
      rw [hh]
      have hA : (0:ℚ) < eps + ((l.take n).sum - 3/8) := by linarith
      have hB : (0:ℚ) < eps - ((l.take n).sum - 3/8) := by linarith
      nlinarith [mul_pos hA hB, hS0']

/-- Witness for C5 at a concrete input: four frames of 1/4 s cover the
airtime; the jump has landed by then (sum = 1 >= 3/4 + 1/4). -/
theorem jump_airtime_peak_witness :
    (0:ℚ) < 1/4 ∧ (1/4 : ℚ) ≤ 3/8
    ∧ ((3:ℚ)/4 + 1/4 ≤ ([1/4, 1/4, 1/4, 1/4] : List ℚ).sum →
        (jumpRun [1/4, 1/4, 1/4, 1/4]).isJumping = false)
    ∧ (jumpRun [1/4, 1/4, 1/4, 1/4]).isJumping = false := by
  have h := jump_airtime_peak (1/4) [1/4, 1/4, 1/4, 1/4] (by norm_num) (by norm_num)
    (by
      intro d hd
      simp at hd
      rw [hd]
      norm_num)
  exact ⟨by norm_num, by norm_num, h.2.1, h.2.1 (by norm_num)⟩
